import Mathlib

/-!
Verification of the execution-environment subsystem of the MSWE-agent
harness.  The Python sources (`sweagent/environment/utils.py`,
`sweagent/environment/swe_env.py`, and the per-repository log parsers in
`multi_swe_bench/harness/repos/...`) are shallowly embedded below:
pure string-processing functions are translated directly, stateful code
becomes explicit state passing, wall-clock time becomes an explicit
event trace, and Python exceptions become `Except` / sum results.
-/

namespace MSWE

/-- Whitespace test matching Python's `str.isspace` / regex `\s` on the
ASCII range (space, tab, newline, carriage return, vertical tab, form feed). -/
def pyWhite (c : Char) : Bool :=
  c == ' ' || c == '\t' || c == '\n' || c == '\r' || c == '\x0b' || c == '\x0c'

/-- Line-break characters recognized by Python's `str.splitlines`
(restricted to the one-character ASCII breaks; `\r\n` is handled as a
single boundary by `splitlinesAux`). -/
def pyLineBreak (c : Char) : Bool :=
  c == '\n' || c == '\r' || c == '\x0b' || c == '\x0c' ||
  c == '\x1c' || c == '\x1d' || c == '\x1e' || c == '\x85' ||
  c == '\u2028' || c == '\u2029'

/-- Python `str.strip()`: drop leading and trailing whitespace. -/
def pyStrip (l : List Char) : List Char :=
  ((l.dropWhile pyWhite).reverse.dropWhile pyWhite).reverse

/-- Python `str.rstrip()`: drop trailing whitespace. -/
def pyRStrip (l : List Char) : List Char :=
  (l.reverse.dropWhile pyWhite).reverse

/-- Python `str.strip()` on `String`. -/
def pyStripS (s : String) : String :=
  String.mk (pyStrip s.data)

/-- Accumulator worker for Python `str.splitlines`: `acc` is the current
(unfinished) line.  A trailing line break does not produce a final empty
line, matching Python. -/
def splitlinesAux : List Char → List Char → List (List Char)
  | [], acc => if acc.isEmpty then [] else [acc]
  | [c], acc => if pyLineBreak c then [acc] else [acc ++ [c]]
  | c :: c2 :: cs, acc =>
      if c = '\r' then
        if c2 = '\n' then acc :: splitlinesAux cs []
        else acc :: splitlinesAux (c2 :: cs) []
      else if pyLineBreak c then acc :: splitlinesAux (c2 :: cs) []
      else splitlinesAux (c2 :: cs) (acc ++ [c])

/-- Python `str.splitlines`. -/
def splitlines (l : List Char) : List (List Char) :=
  splitlinesAux l []

/-- Python `str.split("\n")`: split at every newline, keeping empty parts. -/
def splitOnNl : List Char → List (List Char)
  | [] => [[]]
  | c :: cs =>
      if c == '\n' then [] :: splitOnNl cs
      else
        match splitOnNl cs with
        | r :: rs => (c :: r) :: rs
        | [] => [[c]]

/-- Python `str.split()` (no argument): split on runs of whitespace,
discarding empty fields. -/
def splitWsAux : List Char → List Char → List (List Char)
  | [], acc => if acc.isEmpty then [] else [acc]
  | c :: cs, acc =>
      if pyWhite c then
        if acc.isEmpty then splitWsAux cs [] else acc :: splitWsAux cs []
      else splitWsAux cs (acc ++ [c])

/-- Python `str.split()` on a line of `ps` output. -/
def splitWs (l : List Char) : List (List Char) :=
  splitWsAux l []

/-- Python `str.replace(old, new)` with `new = ""`: delete every
non-overlapping occurrence of `pat`, scanning left to right. -/
def removeAllAux (p : Char) (ps : List Char) : List Char → List Char
  | [] => []
  | c :: cs =>
      if (p :: ps).isPrefixOf (c :: cs) then removeAllAux p ps (cs.drop ps.length)
      else c :: removeAllAux p ps cs
termination_by l => l.length
decreasing_by
  all_goals simp only [List.length_drop, List.length_cons]
  all_goals omega

/-- Python `str.replace(old, new)` with `new = ""` (an empty `old` leaves
the string unchanged, as in Python when the replacement is empty). -/
def removeAll (pat l : List Char) : List Char :=
  match pat with
  | [] => l
  | p :: ps => removeAllAux p ps l

/-- Python `str.replace("\r\n", "\n")`: CRLF normalization, scanning left
to right over non-overlapping occurrences. -/
def crlfNorm : List Char → List Char
  | [] => []
  | '\r' :: '\n' :: cs => '\n' :: crlfNorm cs
  | c :: cs => c :: crlfNorm cs

/-- Split at the first occurrence of `pat`, returning the part before and
the part after the occurrence. -/
def splitFirstList (pat : List Char) : List Char → Option (List Char × List Char)
  | [] => if pat.isEmpty then some ([], []) else none
  | c :: cs =>
      if pat.isPrefixOf (c :: cs) then some ([], (c :: cs).drop pat.length)
      else
        match splitFirstList pat cs with
        | some (b, a) => some (c :: b, a)
        | none => none

/-- Split at the last occurrence of `pat`, returning the part before and
the part after the occurrence. -/
def splitLastList (pat : List Char) : List Char → Option (List Char × List Char)
  | [] => if pat.isEmpty then some ([], []) else none
  | c :: cs =>
      match splitLastList pat cs with
      | some (b, a) => some (c :: b, a)
      | none =>
          if pat.isPrefixOf (c :: cs) then some ([], (c :: cs).drop pat.length)
          else none

/-! ## Test results (`multi_swe_bench` log parsers)

`TestResult` mirrors the Python dataclass: two primary sets plus skipped,
with counts.  Python `set`s are modelled as `Finset (List Char)`;
`set.add` is `Finset.insert` and `set.remove` (guarded by a membership
test in the source) is `Finset.erase`. -/

/-- Mutable parsing state: the three test-name sets built up while
scanning a log. -/
structure TestsState where
  passed : Finset (List Char)
  failed : Finset (List Char)
  skipped : Finset (List Char)
deriving DecidableEq

/-- Result record of `parse_log`: counts plus the three sets, exactly as
constructed at the end of each Python `parse_log`. -/
structure TestResult where
  passed_count : Nat
  failed_count : Nat
  skipped_count : Nat
  passed_tests : Finset (List Char)
  failed_tests : Finset (List Char)
  skipped_tests : Finset (List Char)
deriving DecidableEq

/-- Building the `TestResult` from the final state, with counts taken as
the set cardinalities (`len(...)` in the source). -/
def mkResult (st : TestsState) : TestResult :=
  ⟨st.passed.card, st.failed.card, st.skipped.card, st.passed, st.failed, st.skipped⟩

/-- Empty initial parsing state. -/
def initState : TestsState := ⟨∅, ∅, ∅⟩

namespace Valkey

/-- Group extraction for the common tail `(.+?)( \(.+\))?$` of the valkey
patterns: `r` is an admissible remainder after the lazy group iff it is
empty or is ` (<nonempty>)`. -/
def suffixOk (r : List Char) : Bool :=
  r.isEmpty || (r.take 2 == [' ', '('] && decide (4 ≤ r.length) && r.getLast? == some ')')

/-- Lazy scan for `(.+?)( \(.+\))?$`: the group is the shortest nonempty
prefix whose remainder satisfies `suffixOk`. -/
def tailGroupGo (acc : List Char) : List Char → Option (List Char)
  | [] => none
  | c :: cs =>
      if suffixOk cs then some (acc ++ [c]) else tailGroupGo (acc ++ [c]) cs

/-- Group of `(.+?)( \(.+\))?$` applied to `content`. -/
def tailGroup (content : List Char) : Option (List Char) :=
  tailGroupGo [] content

/-- Matcher for `re.match` of `^\[ok\]: (.+?)( \(.+\))?$`. -/
def matchOk (line : List Char) : Option (List Char) :=
  if line.take 6 == "[ok]: ".data then tailGroup (line.drop 6) else none

/-- Matcher for `re.match` of `^\[err\]: (.+?)( \(.+\))?$`. -/
def matchErr (line : List Char) : Option (List Char) :=
  if line.take 7 == "[err]: ".data then tailGroup (line.drop 7) else none

/-- Matcher for `re.match` of `^\[exception\]: (.+?)( \(.+\))?$`. -/
def matchException (line : List Char) : Option (List Char) :=
  if line.take 13 == "[exception]: ".data then tailGroup (line.drop 13) else none

/-- Matching effect of each pattern: an unconditional insertion into the
given component (the valkey parser performs no conflict resolution). -/
def applyPass (st : TestsState) : Option (List Char) → TestsState
  | some g => { st with passed := insert g st.passed }
  | none => st

/-- Insertion of a fail match into the failed set. -/
def applyFail (st : TestsState) : Option (List Char) → TestsState
  | some g => { st with failed := insert g st.failed }
  | none => st

/-- One loop iteration of `Valkey.parse_log`: strip the line, skip it if
empty, then run the single pass pattern and the two fail patterns. -/
def applyLine (st : TestsState) (raw : List Char) : TestsState :=
  let line := pyStrip raw
  if line.isEmpty then st
  else
    let st1 := applyPass st (matchOk line)
    let st2 := applyFail st1 (matchErr line)
    applyFail st2 (matchException line)

/-- Translation of `Valkey.parse_log` from
`multi_swe_bench/harness/repos/c/valkey_io/valkey.py`. -/
def parse_log (log : String) : TestResult :=
  mkResult ((splitlines log.data).foldl applyLine initState)

end Valkey

namespace Etcd

/-- Matcher for `re.match` of a pattern `^<tag>(\S+)` (used for `--- PASS: `,
`--- FAIL: `, `--- SKIP: `): literal tag then a maximal nonempty run of
non-whitespace characters. -/
def matchDashed (tag : List Char) (line : List Char) : Option (List Char) :=
  if line.take tag.length == tag then
    let g := (line.drop tag.length).takeWhile (fun c => !pyWhite c)
    if g.isEmpty then none else some g
  else none

/-- Lazy scan for `(.+?)\s`: the group is the shortest nonempty prefix
followed by a whitespace character. -/
def lazyGo (acc : List Char) : List Char → Option (List Char)
  | [] => none
  | d :: ds => if pyWhite d then some acc else lazyGo (acc ++ [d]) ds

/-- Entry point of the lazy scan; the first group character must match
`.` (anything but a newline). -/
def lazyUpToWs : List Char → Option (List Char)
  | [] => none
  | c :: cs => if c == '\n' then none else lazyGo [c] cs

/-- Backtracking alternatives for `\s?` applied to `r`: consume one
whitespace character first, then try the empty match. -/
def wsOpts : List Char → List (List Char)
  | [] => [[]]
  | w :: r2 => if pyWhite w then [r2, w :: r2] else [w :: r2]

/-- Backtracking alternatives for `:?\s?` applied to `r0`, in regex
backtracking order (colon consumed first when present). -/
def fail2Cands (r0 : List Char) : List (List Char) :=
  (match r0 with
   | ':' :: r1 => wsOpts r1
   | _ => []) ++ wsOpts r0

/-- Matcher for `re.match` of `FAIL:?\s?(.+?)\s` (the secondary Go fail pattern). -/
def matchFail2 (line : List Char) : Option (List Char) :=
  if line.take 4 == "FAIL".data then
    (fail2Cands (line.drop 4)).findSome? lazyUpToWs
  else none

/-- Translation of `get_base_name`: strip the final `/`-segment of a hierarchical Go
test name (`rfind("/")` in the source). -/
def get_base_name (t : List Char) : List Char :=
  if t.contains '/' then ((t.reverse.dropWhile (fun c => !(c == '/'))).drop 1).reverse
  else t

/-- Pass-pattern effect: insert the base name unless the raw name is
already failed. -/
def applyPass (st : TestsState) : Option (List Char) → TestsState
  | some t =>
      if t ∈ st.failed then st
      else { st with passed := insert (get_base_name t) st.passed }
  | none => st

/-- Fail-pattern effect: remove the raw name from passed and skipped
(the source guards each removal by a membership test, which `erase`
subsumes) and insert the base name into failed. -/
def applyFail (st : TestsState) : Option (List Char) → TestsState
  | some t =>
      { st with passed := st.passed.erase t,
                skipped := st.skipped.erase t,
                failed := insert (get_base_name t) st.failed }
  | none => st

/-- Skip-pattern effect: insert the base name unless the raw name is
already failed. -/
def applySkip (st : TestsState) : Option (List Char) → TestsState
  | some t =>
      if t ∈ st.failed then st
      else { st with skipped := insert (get_base_name t) st.skipped }
  | none => st

/-- One loop iteration of `Etcd.parse_log`: strip, then the pass pattern,
the two fail patterns, and the skip pattern, in source order. -/
def applyLine (st : TestsState) (raw : List Char) : TestsState :=
  let line := pyStrip raw
  let st1 := applyPass st (matchDashed "--- PASS: ".data line)
  let st2 := applyFail st1 (matchDashed "--- FAIL: ".data line)
  let st3 := applyFail st2 (matchFail2 line)
  applySkip st3 (matchDashed "--- SKIP: ".data line)

/-- Translation of `Etcd.parse_log` from
`multi_swe_bench/harness/repos/golang/etcd_io/etcd.py`. -/
def parse_log (log : String) : TestResult :=
  mkResult ((splitlines log.data).foldl applyLine initState)

end Etcd

namespace Logstash

/-- Matcher for `re.match` of `^> Task :(\S+)$`. -/
def taskPlain (line : List Char) : Option (List Char) :=
  if line.take 8 == "> Task :".data then
    let rest := line.drop 8
    if rest.isEmpty then none
    else if rest.all (fun c => !pyWhite c) then some rest else none
  else none

/-- Matcher for `re.match` of `^> Task :(\S+)<suffix>$` for a literal suffix such as
` UP-TO-DATE`, ` FAILED`, ` SKIPPED`, ` NO-SOURCE`. -/
def taskSuffix (suffix : List Char) (line : List Char) : Option (List Char) :=
  if line.take 8 == "> Task :".data then
    let rest := line.drop 8
    if suffix.isSuffixOf rest then
      let g := rest.take (rest.length - suffix.length)
      if g.isEmpty then none
      else if g.all (fun c => !pyWhite c) then some g else none
    else none
  else none

/-- Search for an internal ` > ` separator with at least one character on
the right (helper for `hasArrowSep`). -/
def sepSomewhere : List Char → Bool
  | [] => false
  | c :: cs =>
      (c == ' ' && cs.take 2 == ['>', ' '] && !(cs.drop 2).isEmpty) || sepSomewhere cs

/-- Test whether `g` matches `.+ > .+`: an internal ` > ` with nonempty
sides. -/
def hasArrowSep (g : List Char) : Bool :=
  match g with
  | [] => false
  | _ :: t => sepSomewhere t

/-- Matcher for `re.match` of `^(.+ > .+)<suffix>$` for a literal suffix such as
` PASSED`, ` FAILED`, ` SKIPPED`: the line ends with the suffix and the
remainder contains an internal ` > `. -/
def arrowSuffix (suffix : List Char) (line : List Char) : Option (List Char) :=
  if suffix.isSuffixOf line then
    let g := line.take (line.length - suffix.length)
    if hasArrowSep g then some g else none
  else none

/-- Pass-pattern effect: insert the name unless it is already failed. -/
def applyPass (st : TestsState) : Option (List Char) → TestsState
  | some g => if g ∈ st.failed then st else { st with passed := insert g st.passed }
  | none => st

/-- Fail-pattern effect: insert into failed and remove from passed (the
source guards the removal by a membership test, which `erase` subsumes). -/
def applyFail (st : TestsState) : Option (List Char) → TestsState
  | some g => { st with failed := insert g st.failed, passed := st.passed.erase g }
  | none => st

/-- Skip-pattern effect: unconditional insertion into skipped. -/
def applySkip (st : TestsState) : Option (List Char) → TestsState
  | some g => { st with skipped := insert g st.skipped }
  | none => st

/-- One loop iteration of `Logstash.parse_log` (no stripping): the three
pass patterns, two fail patterns and three skip patterns, in source
order. -/
def applyLine (st : TestsState) (line : List Char) : TestsState :=
  let st1 := applyPass st (taskPlain line)
  let st2 := applyPass st1 (taskSuffix " UP-TO-DATE".data line)
  let st3 := applyPass st2 (arrowSuffix " PASSED".data line)
  let st4 := applyFail st3 (taskSuffix " FAILED".data line)
  let st5 := applyFail st4 (arrowSuffix " FAILED".data line)
  let st6 := applySkip st5 (taskSuffix " SKIPPED".data line)
  let st7 := applySkip st6 (taskSuffix " NO-SOURCE".data line)
  applySkip st7 (arrowSuffix " SKIPPED".data line)

/-- Translation of `Logstash.parse_log` from
`multi_swe_bench/harness/repos/java/elastic/logstash.py`. -/
def parse_log (log : String) : TestResult :=
  mkResult ((splitlines log.data).foldl applyLine initState)

end Logstash

/-! ## Command protocol reader (`read_with_timeout_experimental`)

The reader polls a nonblocking descriptor inside
`while time.time() < min(end_time, end_time_no_output)`.  Wall-clock
time is modelled by an explicit trace of arrivals: `events` is the list
of `(absolute arrival time, chunk)` pairs, times measured in seconds
from the send (so the total deadline sits at `T` and the initial
no-output deadline at `N`).  A chunk that arrives before the current
earliest deadline is appended to the buffer and resets the no-output
deadline to `arrival + N`, exactly as the source resets
`end_time_no_output = time.time() + no_output_timeout_duration`; a chunk
that would arrive later is never read because the loop has already
exited.  The subprocess is assumed alive (`container.poll()` is `None`),
and decoding with `errors="backslashreplace"` is abstracted by letting
chunks arrive as text. -/

/-- Literal `PROCESS_DONE_MARKER_START`. -/
def markerStart : List Char := "///PROCESS-DONE:".data

/-- Literal `PROCESS_DONE_MARKER_END`. -/
def markerEnd : List Char := ":PROCESS-DONE///".data

/-- Python substring test (`needle in haystack`). -/
def isSubList (pat : List Char) : List Char → Bool
  | [] => pat.isEmpty
  | c :: cs => pat.isPrefixOf (c :: cs) || isSubList pat cs

/-- Marker detection: `PROCESS_DONE_MARKER_START in decoded`. -/
def hasMarker (l : List Char) : Bool :=
  isSubList markerStart l

/-- Body construction:
`"\n".join(line for line in decoded.splitlines() if not line.startswith(START))`
applied to the CRLF-normalized buffer. -/
def bodyOf (buf : List Char) : List Char :=
  List.intercalate "\n".data
    ((splitlines (crlfNorm buf)).filter (fun ln => !(markerStart.isPrefixOf ln)))

/-- Lazy scan for the exit-code group of
`///PROCESS-DONE:(.+?):PROCESS-DONE///`: shortest nonempty prefix
followed by the end marker. -/
def lazyCodeGo (acc : List Char) : List Char → Option (List Char)
  | [] => none
  | c :: cs =>
      if markerEnd.isPrefixOf cs then some (acc ++ [c]) else lazyCodeGo (acc ++ [c]) cs

/-- Search for `PROCESS_DONE_REGEX` (`re.search`) in one line: try every start
position left to right; at a position where the start marker matches,
take the lazily smallest group closed by the end marker. -/
def searchCode : List Char → Option (List Char)
  | [] => none
  | c :: cs =>
      (if markerStart.isPrefixOf (c :: cs) then lazyCodeGo [] ((c :: cs).drop markerStart.length)
       else none) <|> searchCode cs

/-- Scan of `reversed(decoded.splitlines())` for the first line matching
the process-done regex. -/
def lastCodeLine (lines : List (List Char)) : Option (List Char) :=
  lines.reverse.findSome? searchCode

/-- Outcome of the reader: success carries `(body, exit_code)`, the two
timeout kinds carry the body built from the partial buffer
(`raise TimeoutError(msg, body)` / `raise NoOutputTimeoutError(msg, body)`),
and `markerMissing` is the `ValueError` branch. -/
inductive ReadOutcome where
  | success (body : List Char) (exitCode : List Char)
  | totalTimeout (body : List Char)
  | noOutputTimeout (body : List Char)
  | markerMissing (decoded : List Char)
deriving DecidableEq

/-- Post-loop timeout dispatch: with the loop exiting at
`min(end_time, end_time_no_output)`, the source raises `TimeoutError`
when the exit time has reached `end_time` (that is, `T ≤ endNo`) and the
distinct `NoOutputTimeoutError` otherwise; both carry the body. -/
def readTimeoutResult (T endNo : ℚ) (buf : List Char) : ReadOutcome :=
  if T ≤ endNo then .totalTimeout (bodyOf buf) else .noOutputTimeout (bodyOf buf)

/-- Success path after the marker was observed: unicode guard aside (it
operates on raw bytes and is modelled separately as
`check_for_too_many_non_unicode_bytes`), scan the reversed lines for the
exit code and strip the marker occurrence from the body. -/
def readSuccess (buf : List Char) : ReadOutcome :=
  let decoded := crlfNorm buf
  match lastCodeLine (splitlines decoded) with
  | none => .markerMissing decoded
  | some code => .success (removeAll (markerStart ++ code ++ markerEnd) (bodyOf buf)) code

/-- Reader loop: `endNo` is the current no-output deadline, `buf` the
byte buffer.  Empty reads (`if data:` false) neither reset the deadline
nor extend the buffer. -/
def readExpAux (T N : ℚ) : ℚ → List Char → List (ℚ × List Char) → ReadOutcome
  | endNo, buf, [] => readTimeoutResult T endNo buf
  | endNo, buf, (t, d) :: rest =>
      if t < min T endNo then
        if d.isEmpty then readExpAux T N endNo buf rest
        else
          let buf2 := buf ++ d
          if hasMarker (crlfNorm buf2) then readSuccess buf2
          else readExpAux T N (t + N) buf2 rest
      else readTimeoutResult T endNo buf

/-- Translation of `read_with_timeout_experimental` over an arrival trace: deadlines
start at `T` (total) and `N` (no output), buffer empty. -/
def read_with_timeout_experimental (T N : ℚ) (events : List (ℚ × List Char)) : ReadOutcome :=
  readExpAux T N N [] events

/-- Exit state of the reader loop on a marker-free trace: the final
no-output deadline and buffer contents. -/
def readExpExit (T N : ℚ) : ℚ → List Char → List (ℚ × List Char) → ℚ × List Char
  | endNo, buf, [] => (endNo, buf)
  | endNo, buf, (t, d) :: rest =>
      if t < min T endNo then
        if d.isEmpty then readExpExit T N endNo buf rest
        else readExpExit T N (t + N) (buf ++ d) rest
      else (endNo, buf)

/-! ## Unicode guard (`_check_for_too_many_non_unicode_bytes`) -/

/-- UTF-8 continuation byte (`0x80..0xBF`). -/
def contB (b : Nat) : Bool := 0x80 ≤ b && b ≤ 0xBF

/-- Position of the first UTF-8 decoding error in a byte list (strict
decoding as in `bytes.decode()`), or `none` when the bytes are valid
UTF-8.  Implements RFC 3629 sequence validation: no overlong forms, no
surrogates, nothing above U+10FFFF; the reported position is the start
of the offending sequence, matching `UnicodeDecodeError.start`. -/
def utf8Err (i : Nat) : List Nat → Option Nat
  | [] => none
  | b :: rest =>
      if b < 0x80 then utf8Err (i + 1) rest
      else if 0xC2 ≤ b && b ≤ 0xDF then
        match rest with
        | c1 :: rest1 => if contB c1 then utf8Err (i + 2) rest1 else some i
        | [] => some i
      else if (b == 0xE0 || (0xE1 ≤ b && b ≤ 0xEC) || b == 0xED || (0xEE ≤ b && b ≤ 0xEF)) then
        match rest with
        | c1 :: c2 :: rest2 =>
            let ok1 :=
              if b == 0xE0 then 0xA0 ≤ c1 && c1 ≤ 0xBF
              else if b == 0xED then 0x80 ≤ c1 && c1 ≤ 0x9F
              else contB c1
            if ok1 && contB c2 then utf8Err (i + 3) rest2 else some i
        | _ => some i
      else if (b == 0xF0 || (0xF1 ≤ b && b ≤ 0xF3) || b == 0xF4) then
        match rest with
        | c1 :: c2 :: c3 :: rest3 =>
            let ok1 :=
              if b == 0xF0 then 0x90 ≤ c1 && c1 ≤ 0xBF
              else if b == 0xF4 then 0x80 ≤ c1 && c1 ≤ 0x8F
              else contB c1
            if ok1 && contB c2 && contB c3 then utf8Err (i + 4) rest3 else some i
        | _ => some i
      else some i

/-- Retry loop of `_check_for_too_many_non_unicode_bytes`: `k` remaining
attempts; each failed decode restarts one byte past the reported error
position (the source sets `start_byte = e.start + 1`, with `e.start`
relative to the current slice). -/
def checkLoop (buf : List Nat) : Nat → Nat → Except Unit Unit
  | _, 0 => .error ()
  | startByte, k + 1 =>
      match utf8Err 0 (buf.drop startByte) with
      | none => .ok ()
      | some e => checkLoop buf (e + 1) k

/-- Translation of `_check_for_too_many_non_unicode_bytes`: the failure budget is
`int(DECODED_BUFFER_FAILURE_THRESHOLD * len(buffer))`; with the 0.1
threshold this equals `len(buffer) / 10` (floor) for every realistic
buffer size.  `Except.error` models the raised `UnicodeError`. -/
def check_for_too_many_non_unicode_bytes (buf : List Nat) : Except Unit Unit :=
  checkLoop buf 0 (buf.length / 10)

/-! ## Container startup (`get_container`, `_get_persistent_container`,
`get_background_pids`)

The docker SDK is modelled by the observable call: either the
non-persistent CLI launch (`docker run -i --rm ...`) or the SDK
`containers.run(...)` with its keyword configuration, or a lifecycle
transition of an already-existing container selected by status. -/

/-- Keyword configuration of `client.containers.run` in
`_get_persistent_container`. -/
structure RunConfig where
  command : String
  stdinOpen : Bool
  tty : Bool
  detach : Bool
  autoRemove : Bool
deriving DecidableEq

/-- Action taken on the container before attaching the exec channel. -/
inductive StartAction where
  | startExisting
  | restartExisting
  | unpauseExisting
  | noopRunning
  | createRun (cfg : RunConfig)
  | statusError (status : String)
  | cliRunRm
deriving DecidableEq

/-- Container handling of `_get_persistent_container` (lines 341-366):
status transitions for an existing container, otherwise a fresh
detached `containers.run` with `auto_remove=not persistent`.  The
`persistent` parameter defaults to `False`, as in the source signature. -/
def get_persistent_container_action (status? : Option String) (persistent : Bool := false) :
    StartAction :=
  match status? with
  | some st =>
      if st = "created" then .startExisting
      else if st = "running" then .noopRunning
      else if st = "exited" then .restartExisting
      else if st = "paused" then .unpauseExisting
      else .statusError st
  | none =>
      .createRun
        { command := "/bin/bash -l -m", stdinOpen := true, tty := true,
          detach := true, autoRemove := !persistent }

/-- Translation of `get_container` dispatch: the persistent branch calls
`_get_persistent_container(ctr_name, image_name)` without forwarding the
`persistent` flag, exactly as in the source (line 433). -/
def get_container_action (persistent : Bool) (status? : Option String) : StartAction :=
  if persistent then get_persistent_container_action status?
  else .cliRunRm

/-- One parsed `ps` entry: the whitespace-separated fields of a line. -/
abbrev PsEntry := List (List Char)

/-- Translation of `get_background_pids`: split the `ps -eo pid,comm --no-headers`
output on newlines, split each nonempty line into fields, drop the `ps`
process and PID 1, and partition into `bash` and non-`bash` entries. -/
def get_background_pids (out : List Char) : List PsEntry × List PsEntry :=
  let pids0 := ((splitOnNl out).filter (fun x => !x.isEmpty)).map splitWs
  let pids := pids0.filter
    (fun x => decide (x.getD 1 [] ≠ "ps".data) && decide (x.getD 0 [] ≠ "1".data))
  (pids.filter (fun x => decide (x.getD 1 [] = "bash".data)),
   pids.filter (fun x => decide (x.getD 1 [] ≠ "bash".data)))

/-- Loop condition of the bounded wait: more than one bash process or
any other process remaining. -/
def alienCond (p : List PsEntry × List PsEntry) : Bool :=
  decide (1 < p.1.length) || !p.2.isEmpty

/-- Bounded wait of `_get_persistent_container` (lines 392-400): while
more than one bash or any other process remains, sleep a second and
re-poll, breaking after the re-poll once `total_time_slept > 5 * d`.
With `total_time_slept = d + k` at the `k`-th re-poll, the break fires
at the first `k > 4 * d`, so the remaining-iteration count `f = 4d + 1 - k`
drives the recursion: at `f = 0` (i.e. `k = 4d + 1`) the loop performs
its final re-poll and breaks.  `polls k` supplies the `ps` output of the
`k`-th poll (`polls 0` being the initial one). -/
def pidWaitGo (polls : Nat → List Char) (cur : List PsEntry × List PsEntry)
    (k : Nat) : Nat → List PsEntry × List PsEntry
  | 0 => if alienCond cur then get_background_pids (polls k) else cur
  | f + 1 =>
      if alienCond cur then pidWaitGo polls (get_background_pids (polls k)) (k + 1) f
      else cur

/-- Message raised when alien processes are detected (the source
interpolates the PID lists; the model keeps the fixed text). -/
def alienMsg : List Char :=
  "Detected alien processes attached or running.".data

/-- Tail of `_get_persistent_container` (lines 391-410): run the bounded
wait, then pick the single bash PID if there is exactly one, raise the
alien-process error if several bash processes or (with no bash found)
other processes remain, and return the parent PID set
`{str(bash_pid), "1"}`. -/
def persistent_startup_pids (d : Nat) (polls : Nat → List Char) :
    Except (List Char) (Finset (List Char)) :=
  let fin := pidWaitGo polls (get_background_pids (polls 0)) 1 (4 * d)
  if fin.1.length = 1 then .ok {(fin.1.getD 0 []).getD 0 [], "1".data}
  else if decide (1 < fin.1.length) || !fin.2.isEmpty then .error alienMsg
  else .ok {"1".data}

/-! ## Orchestrator (`SWEEnv.step`, `SWEEnv.communicate`) -/

/-- Literal `<<SUBMISSION||` opener. -/
def subOpen : List Char := "<<SUBMISSION||".data

/-- Literal `||SUBMISSION>>` closer. -/
def subClose : List Char := "||SUBMISSION>>".data

/-- Translation of `get_submission`: `re.search` of
`\<\<SUBMISSION\|\|(.*)\|\|SUBMISSION\>\>` with `re.DOTALL`.  The match
starts at the first opener and the greedy group extends to the last
closer after it. -/
def get_submission (output : String) : Option String :=
  match splitFirstList subOpen output.data with
  | none => none
  | some (_, rest) =>
      match splitLastList subClose rest with
      | some (mid, _) => some (String.mk mid)
      | none => none

/-- Translation of `action_hacking` from `sweagent/environment/utils.py`: append an
explicit end-marker echo to `./gradlew` commands, and wrap `npm run` /
`yarn run` commands in a detached `nohup` group. -/
def action_hacking (action : String) : String :=
  let a1 :=
    if isSubList "./gradlew".data action.data then
      String.mk (pyRStrip action.data) ++ "; echo ///PROCESS-DONE:$?:PROCESS-DONE///\n"
    else action
  if isSubList "npm run".data a1.data || isSubList "yarn run".data a1.data then
    "(nohup  " ++ a1 ++ " & > /dev/null) && sleep 30 && cat /dev/null \n"
  else a1

/-- The five sentinel actions recognized by `step` (the literal set on
line 404 of `swe_env.py`). -/
def exitActionSet : List String :=
  ["exit_context", "exit_cost", "exit_error", "exit_format", "exit_api"]

/-- Observable outcome of the head of `step`: the returned observation /
`done` / `info` fields, plus `executed`, the rewritten command sent to
the shell when no short-circuit fires (`none` when the episode ends
without executing the action). -/
structure StepResult where
  observation : Option String
  done : Bool
  exitStatus : Option String
  submission : Option String
  executed : Option String
deriving DecidableEq

/-- Head of `SWEEnv.step` (lines 398-423): the `skip` sentinel, the
fixed `exit_*` set (one `submit` attempt whose `communicate` outcome is
the `submitResult` oracle, with any failure — including the nonempty
submission assertion — caught by the bare `except`), and otherwise the
fall-through that rewrites the action and sends it to the shell. -/
def step_action (action : String) (submitResult : Except Unit String) : StepResult :=
  if pyStripS action = "skip" then
    { observation := some "Skipped", done := true, exitStatus := some "skipped",
      submission := none, executed := none }
  else if action ∈ exitActionSet then
    match submitResult with
    | .ok obs =>
        match get_submission obs with
        | some sub =>
            if pyStripS sub ≠ "" then
              { observation := some "Exited (autosubmitted)", done := true,
                exitStatus := some ("submitted (" ++ action ++ ")"),
                submission := some sub, executed := none }
            else
              { observation := some "Exited", done := true, exitStatus := some action,
                submission := none, executed := none }
        | none =>
            { observation := some "Exited", done := true, exitStatus := some action,
              submission := none, executed := none }
    | .error _ =>
        { observation := some "Exited", done := true, exitStatus := some action,
          submission := none, executed := none }
  else
    { observation := none, done := false, exitStatus := none, submission := none,
      executed := some (action_hacking action) }

/-- Side effects of `communicate` on the shell subprocess. -/
inductive ShellEffect where
  | syntaxCheck (cmd : String)
  | writeStdin (cmd : String)
  | terminate
deriving DecidableEq

/-- Observable outcome of `communicate`: returned output, the
`returncode` field, the `communicate_output` field (`none` = left
untouched), and the shell effects in order. -/
structure CommunicateResult where
  output : String
  returncode : Option Int
  communicateOutput : Option String
  effects : List ShellEffect
deriving DecidableEq

/-- Translation of `SWEEnv.communicate` (lines 697-727): for anything but `exit` run the
pre-flight syntax check (whose output and returncode are the
`syntaxOut`/`syntaxCode` oracle) and, if it validates, execute the
command (`runOut`/`runCode` oracle); for `exit` terminate the shell,
zero the returncode and return the empty string. -/
def communicate (input : String) (syntaxOut : String) (syntaxCode : Int)
    (runOut : String) (runCode : Int) : CommunicateResult :=
  if pyStripS input ≠ "exit" then
    if syntaxCode ≠ 0 then
      { output := syntaxOut, returncode := some syntaxCode, communicateOutput := none,
        effects := [.syntaxCheck input] }
    else
      { output := runOut, returncode := some runCode, communicateOutput := some runOut,
        effects := [.syntaxCheck input, .writeStdin input] }
  else
    { output := "", returncode := some 0, communicateOutput := some "",
      effects := [.terminate] }

/-! ## Exception taxonomy (`NoOutputTimeoutError` and `step`'s handlers)

Python's `except C` clause catches an exception of class `D` iff `C` is
an ancestor of (or equal to) `D`.  The class hierarchy below combines
the standard library hierarchy with the single declaration
`class NoOutputTimeoutError(TimeoutError): ...` from
`sweagent/environment/utils.py` line 30. -/

/-- Exception classes relevant to `step`'s handlers. -/
inductive PyClass where
  | baseException
  | exception
  | osError
  | connectionError
  | runtimeError
  | timeoutError
  | noOutputTimeoutError
  | brokenPipeError
  | keyboardInterrupt
deriving DecidableEq

/-- Immediate superclass of each class. -/
def pyParent : PyClass → Option PyClass
  | .baseException => none
  | .exception => some .baseException
  | .osError => some .exception
  | .connectionError => some .osError
  | .runtimeError => some .exception
  | .timeoutError => some .osError
  | .noOutputTimeoutError => some .timeoutError
  | .brokenPipeError => some .connectionError
  | .keyboardInterrupt => some .baseException

/-- Ancestor walk with explicit fuel (the hierarchy depth is below 8). -/
def catchesAux : Nat → PyClass → PyClass → Bool
  | 0, _, _ => false
  | n + 1, c, h =>
      c == h ||
      (match pyParent c with
       | some p => catchesAux n p h
       | none => false)

/-- Whether an `except h` clause catches an exception of class `c`. -/
def catches (h c : PyClass) : Bool := catchesAux 8 c h

/-- Exception values that `communicate` can raise into `step`: the two
timeout kinds carry `(msg, body)` (so `e.args[1]` is the partial body),
the others carry only a message. -/
inductive CommExc where
  | totalTimeout (msg body : String)
  | noOutputTimeout (msg body : String)
  | runtimeFailure (msg : String)
  | brokenPipe (msg : String)
  | otherExc (msg : String)
deriving DecidableEq

/-- Class of each exception value. -/
def classOfExc : CommExc → PyClass
  | .totalTimeout _ _ => .timeoutError
  | .noOutputTimeout _ _ => .noOutputTimeoutError
  | .runtimeFailure _ => .runtimeError
  | .brokenPipe _ => .brokenPipeError
  | .otherExc _ => .exception

/-- Payload accessor `e.args[1] if len(e.args) > 1 else ""`. -/
def excSecondArg : CommExc → String
  | .totalTimeout _ b => b
  | .noOutputTimeout _ b => b
  | _ => ""

/-- The `except` clauses of `step` in source order (lines 433-460). -/
inductive StepClause where
  | timeoutClause
  | runtimeClause
  | brokenPipeClause
  | genericClause
deriving DecidableEq

/-- Class named by each clause. -/
def clauseClass : StepClause → PyClass
  | .timeoutClause => .timeoutError
  | .runtimeClause => .runtimeError
  | .brokenPipeClause => .brokenPipeError
  | .genericClause => .exception

/-- Clause order in the source. -/
def stepClauses : List StepClause :=
  [.timeoutClause, .runtimeClause, .brokenPipeClause, .genericClause]

/-- Python handler dispatch: the first clause whose class catches the
raised exception's class. -/
def step_handler_for (e : CommExc) : Option StepClause :=
  stepClauses.find? (fun cl => catches (clauseClass cl) (classOfExc e))

/-- Fixed banner appended after a successful interrupt. -/
def timeoutBanner : String :=
  "\nEXECUTION TIMED OUT BECAUSE NO OUTPUT WAS PRODUCED FOR MORE THAN 500 SECONDS.\nPLEASE REFINE YOUR RUNNING COMMAND SO IT WILL PRODUCE OUTPUT IN THE SPECIFIED TIME FRAME."

/-- Observable outcome of one `except` branch of `step`: the text
appended to the observation, whether the episode ends here, the
`exit_status` recorded, and whether `close()` is called. -/
structure ExcBranchResult where
  observationSuffix : String
  done : Bool
  exitStatus : Option String
  closed : Bool
deriving DecidableEq

/-- Exception handling of `step` (lines 433-462): the `TimeoutError`
clause appends `e.args[1]`, attempts the interrupt (its outcome is the
`interruptResult` oracle — `.ok` carries the drained output, `.error`
carries `args[1]` of the `RuntimeError`, usually empty) and either
appends the banner and falls through, or records `early_exit` and
closes; the other clauses append their fixed text.  `none` means no
clause catches and the exception propagates. -/
def step_exc_branch (e : CommExc) (interruptResult : Except String String) :
    Option ExcBranchResult :=
  match step_handler_for e with
  | some .timeoutClause =>
      match interruptResult with
      | .ok intOut =>
          some { observationSuffix := excSecondArg e ++ intOut ++ timeoutBanner,
                 done := false, exitStatus := none, closed := false }
      | .error rtArg =>
          some { observationSuffix := excSecondArg e ++ rtArg ++
                   "\nEXECUTION TIMED OUT AND INTERRUPT FAILED.",
                 done := true, exitStatus := some "early_exit", closed := true }
  | some .runtimeClause =>
      some { observationSuffix := "\nCOMMAND FAILED TO EXECUTE.", done := true,
             exitStatus := some "early_exit", closed := true }
  | some .brokenPipeClause =>
      some { observationSuffix := "\nBROKEN PIPE ERROR.", done := true,
             exitStatus := some "early_exit", closed := true }
  | some .genericClause =>
      some { observationSuffix := "\nEXECUTION FAILED OR COMMAND MALFORMED",
             done := false, exitStatus := none, closed := false }
  | none => none

/-! ## Support predicates for the parser lemmas

For each parser, a per-line "hit" predicate records that some pattern of
the given kind matched the line with (after normalization, for the Go
parser) the given name; the `Any` variants lift this to a list of
lines. -/

/-- A valkey pass pattern matched the stripped, nonempty line with group `x`. -/
def vkPassHit (l x : List Char) : Prop :=
  (pyStrip l).isEmpty = false ∧ Valkey.matchOk (pyStrip l) = some x

/-- A valkey fail pattern matched the stripped, nonempty line with group `x`. -/
def vkFailHit (l x : List Char) : Prop :=
  (pyStrip l).isEmpty = false ∧
    (Valkey.matchErr (pyStrip l) = some x ∨ Valkey.matchException (pyStrip l) = some x)

/-- Some line of the list has a valkey pass hit for `x`. -/
def vkAnyPass : List (List Char) → List Char → Prop
  | [], _ => False
  | l :: ls, x => vkPassHit l x ∨ vkAnyPass ls x

/-- Some line of the list has a valkey fail hit for `x`. -/
def vkAnyFail : List (List Char) → List Char → Prop
  | [], _ => False
  | l :: ls, x => vkFailHit l x ∨ vkAnyFail ls x

/-- A Go fail pattern matched the stripped line and the base name of its
group is `x`. -/
def etFailHit (l x : List Char) : Prop :=
  (Etcd.matchDashed "--- FAIL: ".data (pyStrip l)).map Etcd.get_base_name = some x ∨
  (Etcd.matchFail2 (pyStrip l)).map Etcd.get_base_name = some x

/-- Some line of the list has a Go fail hit for `x`. -/
def etAnyFail : List (List Char) → List Char → Prop
  | [], _ => False
  | l :: ls, x => etFailHit l x ∨ etAnyFail ls x

/-- A Gradle pass pattern matched the line with group `x`. -/
def lsPassHit (l x : List Char) : Prop :=
  Logstash.taskPlain l = some x ∨ Logstash.taskSuffix " UP-TO-DATE".data l = some x ∨
  Logstash.arrowSuffix " PASSED".data l = some x

/-- A Gradle fail pattern matched the line with group `x`. -/
def lsFailHit (l x : List Char) : Prop :=
  Logstash.taskSuffix " FAILED".data l = some x ∨
  Logstash.arrowSuffix " FAILED".data l = some x

/-- A Gradle skip pattern matched the line with group `x`. -/
def lsSkipHit (l x : List Char) : Prop :=
  Logstash.taskSuffix " SKIPPED".data l = some x ∨
  Logstash.taskSuffix " NO-SOURCE".data l = some x ∨
  Logstash.arrowSuffix " SKIPPED".data l = some x

/-- Some line of the list has a Gradle pass hit for `x`. -/
def lsAnyPass : List (List Char) → List Char → Prop
  | [], _ => False
  | l :: ls, x => lsPassHit l x ∨ lsAnyPass ls x

/-- Some line of the list has a Gradle fail hit for `x`. -/
def lsAnyFail : List (List Char) → List Char → Prop
  | [], _ => False
  | l :: ls, x => lsFailHit l x ∨ lsAnyFail ls x

/-- Some line of the list has a Gradle skip hit for `x`. -/
def lsAnySkip : List (List Char) → List Char → Prop
  | [], _ => False
  | l :: ls, x => lsSkipHit l x ∨ lsAnySkip ls x

/-! ## Generic lemmas -/

/-- String concatenation acts on the underlying character lists. -/
theorem string_data_append (a b : String) : (a ++ b).data = a.data ++ b.data := by
  cases a; cases b; rfl

/-- Two parsing states with equal components are equal. -/
theorem testsState_eq {a b : TestsState} (h1 : a.passed = b.passed)
    (h2 : a.failed = b.failed) (h3 : a.skipped = b.skipped) : a = b := by
  cases a; cases b; simp_all

/-- On a chunk whose last character is a newline, `splitlines`
concatenates: the worker splits `xs ++ ys` into the lines of `xs`
followed by the lines of `ys`. -/
theorem splitlinesAux_append : ∀ (xs : List Char), xs.getLast? = some '\n' →
    ∀ (acc ys : List Char),
      splitlinesAux (xs ++ ys) acc = splitlinesAux xs acc ++ splitlinesAux ys []
  | [], h => by simp at h
  | [c], h => by
      intro acc ys
      simp only [List.getLast?_singleton, Option.some.injEq] at h
      subst h
      rcases ys with _ | ⟨y, ys2⟩
      · simp [splitlinesAux, pyLineBreak]
      · simp [splitlinesAux, pyLineBreak]
  | c :: c2 :: cs2, h => by
      intro acc ys
      rw [List.getLast?_cons_cons] at h
      by_cases hc : c = '\r'
      · subst hc
        by_cases h2 : c2 = '\n'
        · subst h2
          have lhs_eq : splitlinesAux (('\r' :: '\n' :: cs2) ++ ys) acc
              = acc :: splitlinesAux (cs2 ++ ys) [] := by
            simp [splitlinesAux]
          have rhs_eq : splitlinesAux ('\r' :: '\n' :: cs2) acc
              = acc :: splitlinesAux cs2 [] := by
            simp [splitlinesAux]
          rw [lhs_eq, rhs_eq]
          by_cases hne : cs2 = []
          · subst hne
            simp [splitlinesAux]
          · have h3 : cs2.getLast? = some '\n' := by
              cases cs2 with
              | nil => exact absurd rfl hne
              | cons c3 cs3 => rwa [List.getLast?_cons_cons] at h
            rw [splitlinesAux_append cs2 h3 [] ys]
            simp
        · have lhs_eq : splitlinesAux (('\r' :: c2 :: cs2) ++ ys) acc
              = acc :: splitlinesAux ((c2 :: cs2) ++ ys) [] := by
            simp [splitlinesAux, h2]
          have rhs_eq : splitlinesAux ('\r' :: c2 :: cs2) acc
              = acc :: splitlinesAux (c2 :: cs2) [] := by
            simp [splitlinesAux, h2]
          rw [lhs_eq, rhs_eq, splitlinesAux_append (c2 :: cs2) h [] ys]
          simp
      · by_cases hb : pyLineBreak c = true
        · have lhs_eq : splitlinesAux ((c :: c2 :: cs2) ++ ys) acc
              = acc :: splitlinesAux ((c2 :: cs2) ++ ys) [] := by
            simp [splitlinesAux, hc, hb]
          have rhs_eq : splitlinesAux (c :: c2 :: cs2) acc
              = acc :: splitlinesAux (c2 :: cs2) [] := by
            simp [splitlinesAux, hc, hb]
          rw [lhs_eq, rhs_eq, splitlinesAux_append (c2 :: cs2) h [] ys]
          simp
        · have lhs_eq : splitlinesAux ((c :: c2 :: cs2) ++ ys) acc
              = splitlinesAux ((c2 :: cs2) ++ ys) (acc ++ [c]) := by
            simp [splitlinesAux, hc, hb]
          have rhs_eq : splitlinesAux (c :: c2 :: cs2) acc
              = splitlinesAux (c2 :: cs2) (acc ++ [c]) := by
            simp [splitlinesAux, hc, hb]
          rw [lhs_eq, rhs_eq, splitlinesAux_append (c2 :: cs2) h (acc ++ [c]) ys]
termination_by xs => xs.length

/-- Lines of a newline-terminated chunk concatenate under duplication. -/
theorem splitlines_append (xs ys : List Char) (h : xs.getLast? = some '\n') :
    splitlines (xs ++ ys) = splitlines xs ++ splitlines ys := by
  unfold splitlines
  exact splitlinesAux_append xs h [] ys

/-! ## Gradle (logstash) parser lemmas

Per-name characterization of the parsing state: membership of a name in
each component is governed only by which patterns hit that name, with a
fail hit killing passed-membership from that line on. -/

theorem ls_applyPass_passed (st : TestsState) (g? : Option (List Char)) (x : List Char) :
    x ∈ (Logstash.applyPass st g?).passed ↔
      x ∈ st.passed ∨ (g? = some x ∧ x ∉ st.failed) := by
  cases g? with
  | none => simp [Logstash.applyPass]
  | some g =>
      by_cases hg : g ∈ st.failed
      · simp only [Logstash.applyPass, if_pos hg, Option.some.injEq]
        constructor
        · exact Or.inl
        · rintro (hp | ⟨rfl, hn⟩)
          · exact hp
          · exact absurd hg hn
      · simp only [Logstash.applyPass, if_neg hg, Finset.mem_insert, Option.some.injEq]
        constructor
        · rintro (rfl | hp)
          · exact Or.inr ⟨rfl, hg⟩
          · exact Or.inl hp
        · rintro (hp | ⟨rfl, _⟩)
          · exact Or.inr hp
          · exact Or.inl rfl

theorem ls_applyPass_failed (st : TestsState) (g? : Option (List Char)) :
    (Logstash.applyPass st g?).failed = st.failed := by
  cases g? with
  | none => rfl
  | some g => by_cases hg : g ∈ st.failed <;> simp [Logstash.applyPass, hg]

theorem ls_applyPass_skipped (st : TestsState) (g? : Option (List Char)) :
    (Logstash.applyPass st g?).skipped = st.skipped := by
  cases g? with
  | none => rfl
  | some g => by_cases hg : g ∈ st.failed <;> simp [Logstash.applyPass, hg]

theorem ls_applyFail_passed (st : TestsState) (g? : Option (List Char)) (x : List Char) :
    x ∈ (Logstash.applyFail st g?).passed ↔ x ∈ st.passed ∧ ¬ g? = some x := by
  cases g? with
  | none => simp [Logstash.applyFail]
  | some g =>
      simp only [Logstash.applyFail, Finset.mem_erase, Option.some.injEq]
      constructor
      · rintro ⟨hne, hp⟩
        exact ⟨hp, fun he => hne he.symm⟩
      · rintro ⟨hp, hne⟩
        exact ⟨fun he => hne he.symm, hp⟩

theorem ls_applyFail_failed (st : TestsState) (g? : Option (List Char)) (x : List Char) :
    x ∈ (Logstash.applyFail st g?).failed ↔ x ∈ st.failed ∨ g? = some x := by
  cases g? with
  | none => simp [Logstash.applyFail]
  | some g =>
      simp only [Logstash.applyFail, Finset.mem_insert, Option.some.injEq]
      constructor
      · rintro (rfl | hf)
        · exact Or.inr rfl
        · exact Or.inl hf
      · rintro (hf | rfl)
        · exact Or.inr hf
        · exact Or.inl rfl

theorem ls_applyFail_skipped (st : TestsState) (g? : Option (List Char)) :
    (Logstash.applyFail st g?).skipped = st.skipped := by
  cases g? <;> rfl

theorem ls_applySkip_passed (st : TestsState) (g? : Option (List Char)) :
    (Logstash.applySkip st g?).passed = st.passed := by
  cases g? <;> rfl

theorem ls_applySkip_failed (st : TestsState) (g? : Option (List Char)) :
    (Logstash.applySkip st g?).failed = st.failed := by
  cases g? <;> rfl

theorem ls_applySkip_skipped (st : TestsState) (g? : Option (List Char)) (x : List Char) :
    x ∈ (Logstash.applySkip st g?).skipped ↔ x ∈ st.skipped ∨ g? = some x := by
  cases g? with
  | none => simp [Logstash.applySkip]
  | some g =>
      simp only [Logstash.applySkip, Finset.mem_insert, Option.some.injEq]
      constructor
      · rintro (rfl | hs)
        · exact Or.inr rfl
        · exact Or.inl hs
      · rintro (hs | rfl)
        · exact Or.inr hs
        · exact Or.inl rfl

theorem ls_line_passed (st : TestsState) (l x : List Char) :
    x ∈ (Logstash.applyLine st l).passed ↔
      ¬ lsFailHit l x ∧ (x ∈ st.passed ∨ (lsPassHit l x ∧ x ∉ st.failed)) := by
  simp only [Logstash.applyLine, ls_applySkip_passed, ls_applyFail_passed,
    ls_applyPass_passed, ls_applyPass_failed, lsFailHit, lsPassHit]
  tauto

theorem ls_line_failed (st : TestsState) (l x : List Char) :
    x ∈ (Logstash.applyLine st l).failed ↔ x ∈ st.failed ∨ lsFailHit l x := by
  simp only [Logstash.applyLine, ls_applySkip_failed, ls_applyFail_failed,
    ls_applyPass_failed, lsFailHit]
  tauto

theorem ls_line_skipped (st : TestsState) (l x : List Char) :
    x ∈ (Logstash.applyLine st l).skipped ↔ x ∈ st.skipped ∨ lsSkipHit l x := by
  simp only [Logstash.applyLine, ls_applySkip_skipped, ls_applyFail_skipped,
    ls_applyPass_skipped, lsSkipHit]
  tauto

theorem ls_fold_passed (ls : List (List Char)) (st : TestsState) (x : List Char) :
    x ∈ (ls.foldl Logstash.applyLine st).passed ↔
      ¬ lsAnyFail ls x ∧ (x ∈ st.passed ∨ (lsAnyPass ls x ∧ x ∉ st.failed)) := by
  induction ls generalizing st with
  | nil => simp [lsAnyFail, lsAnyPass]
  | cons l ls ih =>
      simp only [List.foldl_cons, ih, ls_line_passed, ls_line_failed,
        lsAnyFail, lsAnyPass]
      tauto

theorem ls_fold_failed (ls : List (List Char)) (st : TestsState) (x : List Char) :
    x ∈ (ls.foldl Logstash.applyLine st).failed ↔ x ∈ st.failed ∨ lsAnyFail ls x := by
  induction ls generalizing st with
  | nil => simp [lsAnyFail]
  | cons l ls ih =>
      simp only [List.foldl_cons, ih, ls_line_failed, lsAnyFail]
      tauto

theorem ls_fold_skipped (ls : List (List Char)) (st : TestsState) (x : List Char) :
    x ∈ (ls.foldl Logstash.applyLine st).skipped ↔ x ∈ st.skipped ∨ lsAnySkip ls x := by
  induction ls generalizing st with
  | nil => simp [lsAnySkip]
  | cons l ls ih =>
      simp only [List.foldl_cons, ih, ls_line_skipped, lsAnySkip]
      tauto

theorem lsAnyPass_append (l1 l2 : List (List Char)) (x : List Char) :
    lsAnyPass (l1 ++ l2) x ↔ lsAnyPass l1 x ∨ lsAnyPass l2 x := by
  induction l1 with
  | nil => simp [lsAnyPass]
  | cons l ls ih => simp [lsAnyPass, ih]; tauto

theorem lsAnyFail_append (l1 l2 : List (List Char)) (x : List Char) :
    lsAnyFail (l1 ++ l2) x ↔ lsAnyFail l1 x ∨ lsAnyFail l2 x := by
  induction l1 with
  | nil => simp [lsAnyFail]
  | cons l ls ih => simp [lsAnyFail, ih]; tauto

theorem lsAnySkip_append (l1 l2 : List (List Char)) (x : List Char) :
    lsAnySkip (l1 ++ l2) x ↔ lsAnySkip l1 x ∨ lsAnySkip l2 x := by
  induction l1 with
  | nil => simp [lsAnySkip]
  | cons l ls ih => simp [lsAnySkip, ih]; tauto

/-! ## Valkey parser lemmas: every effect is an unconditional insertion. -/

theorem vk_applyPass_passed (st : TestsState) (g? : Option (List Char)) (x : List Char) :
    x ∈ (Valkey.applyPass st g?).passed ↔ x ∈ st.passed ∨ g? = some x := by
  cases g? with
  | none => simp [Valkey.applyPass]
  | some g =>
      simp only [Valkey.applyPass, Finset.mem_insert, Option.some.injEq]
      constructor
      · rintro (rfl | hp)
        · exact Or.inr rfl
        · exact Or.inl hp
      · rintro (hp | rfl)
        · exact Or.inr hp
        · exact Or.inl rfl

theorem vk_applyPass_failed (st : TestsState) (g? : Option (List Char)) :
    (Valkey.applyPass st g?).failed = st.failed := by
  cases g? <;> rfl

theorem vk_applyPass_skipped (st : TestsState) (g? : Option (List Char)) :
    (Valkey.applyPass st g?).skipped = st.skipped := by
  cases g? <;> rfl

theorem vk_applyFail_failed (st : TestsState) (g? : Option (List Char)) (x : List Char) :
    x ∈ (Valkey.applyFail st g?).failed ↔ x ∈ st.failed ∨ g? = some x := by
  cases g? with
  | none => simp [Valkey.applyFail]
  | some g =>
      simp only [Valkey.applyFail, Finset.mem_insert, Option.some.injEq]
      constructor
      · rintro (rfl | hf)
        · exact Or.inr rfl
        · exact Or.inl hf
      · rintro (hf | rfl)
        · exact Or.inr hf
        · exact Or.inl rfl

theorem vk_applyFail_passed (st : TestsState) (g? : Option (List Char)) :
    (Valkey.applyFail st g?).passed = st.passed := by
  cases g? <;> rfl

theorem vk_applyFail_skipped (st : TestsState) (g? : Option (List Char)) :
    (Valkey.applyFail st g?).skipped = st.skipped := by
  cases g? <;> rfl

theorem vk_line_passed (st : TestsState) (l x : List Char) :
    x ∈ (Valkey.applyLine st l).passed ↔ x ∈ st.passed ∨ vkPassHit l x := by
  by_cases he : (pyStrip l).isEmpty
  · simp [Valkey.applyLine, he, vkPassHit]
  · simp only [Valkey.applyLine, he, Bool.false_eq_true, if_false,
      vk_applyFail_passed, vk_applyPass_passed, vkPassHit]
    simp only [Bool.not_eq_true] at he
    simp [he]

theorem vk_line_failed (st : TestsState) (l x : List Char) :
    x ∈ (Valkey.applyLine st l).failed ↔ x ∈ st.failed ∨ vkFailHit l x := by
  by_cases he : (pyStrip l).isEmpty
  · simp [Valkey.applyLine, he, vkFailHit]
  · simp only [Valkey.applyLine, he, Bool.false_eq_true, if_false,
      vk_applyFail_failed, vk_applyPass_failed, vkFailHit]
    simp only [Bool.not_eq_true] at he
    simp [he]
    tauto

theorem vk_line_skipped (st : TestsState) (l : List Char) :
    (Valkey.applyLine st l).skipped = st.skipped := by
  by_cases he : (pyStrip l).isEmpty <;>
    simp [Valkey.applyLine, he, vk_applyFail_skipped, vk_applyPass_skipped]

theorem vk_fold_passed (ls : List (List Char)) (st : TestsState) (x : List Char) :
    x ∈ (ls.foldl Valkey.applyLine st).passed ↔ x ∈ st.passed ∨ vkAnyPass ls x := by
  induction ls generalizing st with
  | nil => simp [vkAnyPass]
  | cons l ls ih =>
      simp only [List.foldl_cons, ih, vk_line_passed, vkAnyPass]
      tauto

theorem vk_fold_failed (ls : List (List Char)) (st : TestsState) (x : List Char) :
    x ∈ (ls.foldl Valkey.applyLine st).failed ↔ x ∈ st.failed ∨ vkAnyFail ls x := by
  induction ls generalizing st with
  | nil => simp [vkAnyFail]
  | cons l ls ih =>
      simp only [List.foldl_cons, ih, vk_line_failed, vkAnyFail]
      tauto

theorem vk_fold_skipped (ls : List (List Char)) (st : TestsState) :
    (ls.foldl Valkey.applyLine st).skipped = st.skipped := by
  induction ls generalizing st with
  | nil => rfl
  | cons l ls ih => simp only [List.foldl_cons, ih, vk_line_skipped]

theorem vkAnyPass_append (l1 l2 : List (List Char)) (x : List Char) :
    vkAnyPass (l1 ++ l2) x ↔ vkAnyPass l1 x ∨ vkAnyPass l2 x := by
  induction l1 with
  | nil => simp [vkAnyPass]
  | cons l ls ih => simp [vkAnyPass, ih]; tauto

theorem vkAnyFail_append (l1 l2 : List (List Char)) (x : List Char) :
    vkAnyFail (l1 ++ l2) x ↔ vkAnyFail l1 x ∨ vkAnyFail l2 x := by
  induction l1 with
  | nil => simp [vkAnyFail]
  | cons l ls ih => simp [vkAnyFail, ih]; tauto

/-- Duplicating the line list does not change the final valkey state. -/
theorem vk_state_dup (ls : List (List Char)) :
    (ls ++ ls).foldl Valkey.applyLine initState = ls.foldl Valkey.applyLine initState := by
  refine testsState_eq (Finset.ext fun x => ?_) (Finset.ext fun x => ?_) ?_
  · rw [vk_fold_passed, vk_fold_passed]
    simp only [vkAnyPass_append, initState]
    simp
  · rw [vk_fold_failed, vk_fold_failed]
    simp only [vkAnyFail_append, initState]
    simp
  · rw [vk_fold_skipped, vk_fold_skipped]

/-! ## Go (etcd) parser lemmas for the failed component, which only ever
receives unconditional insertions of base names. -/

theorem et_applyPass_failed (st : TestsState) (g? : Option (List Char)) :
    (Etcd.applyPass st g?).failed = st.failed := by
  cases g? with
  | none => rfl
  | some t => by_cases ht : t ∈ st.failed <;> simp [Etcd.applyPass, ht]

theorem et_applySkip_failed (st : TestsState) (g? : Option (List Char)) :
    (Etcd.applySkip st g?).failed = st.failed := by
  cases g? with
  | none => rfl
  | some t => by_cases ht : t ∈ st.failed <;> simp [Etcd.applySkip, ht]

theorem et_applyFail_failed (st : TestsState) (g? : Option (List Char)) (x : List Char) :
    x ∈ (Etcd.applyFail st g?).failed ↔
      x ∈ st.failed ∨ g?.map Etcd.get_base_name = some x := by
  cases g? with
  | none => simp [Etcd.applyFail]
  | some t =>
      simp only [Etcd.applyFail, Finset.mem_insert, Option.map_some', Option.some.injEq]
      constructor
      · rintro (rfl | hf)
        · exact Or.inr rfl
        · exact Or.inl hf
      · rintro (hf | rfl)
        · exact Or.inr hf
        · exact Or.inl rfl

theorem et_line_failed (st : TestsState) (l x : List Char) :
    x ∈ (Etcd.applyLine st l).failed ↔ x ∈ st.failed ∨ etFailHit l x := by
  simp only [Etcd.applyLine, et_applySkip_failed, et_applyFail_failed,
    et_applyPass_failed, etFailHit]
  tauto

theorem et_fold_failed (ls : List (List Char)) (st : TestsState) (x : List Char) :
    x ∈ (ls.foldl Etcd.applyLine st).failed ↔ x ∈ st.failed ∨ etAnyFail ls x := by
  induction ls generalizing st with
  | nil => simp [etAnyFail]
  | cons l ls ih =>
      simp only [List.foldl_cons, ih, et_line_failed, etAnyFail]
      tauto

theorem etAnyFail_append (l1 l2 : List (List Char)) (x : List Char) :
    etAnyFail (l1 ++ l2) x ↔ etAnyFail l1 x ∨ etAnyFail l2 x := by
  induction l1 with
  | nil => simp [etAnyFail]
  | cons l ls ih => simp [etAnyFail, ih]; tauto

/-- Duplicating the line list does not change the final Go failed set. -/
theorem et_failed_dup (ls : List (List Char)) :
    ((ls ++ ls).foldl Etcd.applyLine initState).failed
      = (ls.foldl Etcd.applyLine initState).failed := by
  refine Finset.ext fun x => ?_
  rw [et_fold_failed, et_fold_failed]
  simp only [etAnyFail_append, initState]
  simp

/-- Duplicating the line list does not change the final logstash state. -/
theorem ls_state_dup (ls : List (List Char)) :
    (ls ++ ls).foldl Logstash.applyLine initState = ls.foldl Logstash.applyLine initState := by
  refine testsState_eq (Finset.ext fun x => ?_) (Finset.ext fun x => ?_) (Finset.ext fun x => ?_)
  · rw [ls_fold_passed, ls_fold_passed]
    simp only [lsAnyFail_append, lsAnyPass_append, initState]
    simp
  · rw [ls_fold_failed, ls_fold_failed]
    simp only [lsAnyFail_append, initState]
    simp
  · rw [ls_fold_skipped, ls_fold_skipped]
    simp only [lsAnySkip_append, initState]
    simp

/-! ## Claims C2, C6, C7 -/

/-- C2 (counterexample): the claim "for every registered parser the
passed and failed sets are disjoint" is false at concrete logs.  The
valkey parser performs no conflict resolution, so `[ok]: T` followed by
`[err]: T` leaves `T` in both sets; the Go parser guards and erases by
the raw name but inserts base names, so `--- FAIL: A` followed by
`--- PASS: A/S` leaves `A` in both sets. -/
theorem c2_counterexample :
    ("T".data ∈ (Valkey.parse_log "[ok]: T\n[err]: T\n").passed_tests ∧
     "T".data ∈ (Valkey.parse_log "[ok]: T\n[err]: T\n").failed_tests) ∧
    ("A".data ∈ (Etcd.parse_log "--- FAIL: A\n--- PASS: A/S\n").passed_tests ∧
     "A".data ∈ (Etcd.parse_log "--- FAIL: A\n--- PASS: A/S\n").failed_tests) := by
  decide

/-- C2 (amended): only the Gradle/logstash parser guarantees the
invariant: a fail match removes the exact name from passed, a later
pass match for a failed name is not re-added, and consequently its
passed and failed sets are disjoint on every input log. -/
theorem c2_amended (log : String) :
    (Logstash.parse_log log).passed_tests ∩ (Logstash.parse_log log).failed_tests = ∅ := by
  apply Finset.eq_empty_iff_forall_not_mem.mpr
  intro x hx
  rw [Finset.mem_inter] at hx
  obtain ⟨hp, hf⟩ := hx
  have hp' : x ∈ ((splitlines log.data).foldl Logstash.applyLine initState).passed := hp
  have hf' : x ∈ ((splitlines log.data).foldl Logstash.applyLine initState).failed := hf
  rw [ls_fold_passed] at hp'
  rw [ls_fold_failed] at hf'
  simp only [initState] at hp' hf'
  simp at hp' hf'
  exact hp'.1 hf'

/-- C6: the Go parser normalizes hierarchical names by stripping the
last `/`-segment, so `--- PASS: TestA/Sub1` then `--- FAIL: TestA/Sub2`
yields passed = failed = {`TestA`}: the fail path's conflict-resolution
check (which looks up the raw name `TestA/Sub2` in the passed set)
does not fire, and `TestA` is added to failed afterwards. -/
theorem c6_go_subtest_rollup :
    (Etcd.parse_log "--- PASS: TestA/Sub1\n--- FAIL: TestA/Sub2\n").passed_tests = {"TestA".data} ∧
    (Etcd.parse_log "--- PASS: TestA/Sub1\n--- FAIL: TestA/Sub2\n").failed_tests = {"TestA".data} := by
  decide

/-- C7 (counterexample): the Go parser is not idempotent under log
duplication.  On `--- FAIL: A` / `--- PASS: A/S` / `--- FAIL: A/S/B`
the first pass leaves `A` passed (the guard checks the raw name `A/S`
against failed = {`A`, `A/S`} only after the second round has begun),
but the duplicated log's second `--- FAIL: A` erases `A` from passed
and its `--- PASS: A/S` is now blocked by `A/S ∈ failed`. -/
theorem c7_counterexample :
    (Etcd.parse_log ("--- FAIL: A\n--- PASS: A/S\n--- FAIL: A/S/B\n"
        ++ "--- FAIL: A\n--- PASS: A/S\n--- FAIL: A/S/B\n")).passed_tests ≠
    (Etcd.parse_log "--- FAIL: A\n--- PASS: A/S\n--- FAIL: A/S/B\n").passed_tests := by
  decide

/-- C7 (amended): under log duplication (for logs ending in a newline,
so the duplicated log splits into the same lines twice) the valkey and
Gradle/logstash parsers return identical `TestResult`s, and the Go
parser's failed set is unchanged (failed stays failed and no new
failures appear); the Go parser's passed and skipped sets, however, can
shrink on the duplicated log (see the counterexample). -/
theorem c7_amended (s : String) (h : s.data.getLast? = some '\n') :
    Valkey.parse_log (s ++ s) = Valkey.parse_log s ∧
    Logstash.parse_log (s ++ s) = Logstash.parse_log s ∧
    (Etcd.parse_log (s ++ s)).failed_tests = (Etcd.parse_log s).failed_tests := by
  refine ⟨?_, ?_, ?_⟩
  · unfold Valkey.parse_log
    rw [string_data_append, splitlines_append _ _ h, vk_state_dup]
  · unfold Logstash.parse_log
    rw [string_data_append, splitlines_append _ _ h, ls_state_dup]
  · show ((splitlines (s ++ s).data).foldl Etcd.applyLine initState).failed
        = ((splitlines s.data).foldl Etcd.applyLine initState).failed
    rw [string_data_append, splitlines_append _ _ h, et_failed_dup]

/-- C7 (witness): the amended idempotence at the concrete one-line log `x\n`. -/
theorem c7_witness :
    Valkey.parse_log ("x\n" ++ "x\n") = Valkey.parse_log "x\n" ∧
    Logstash.parse_log ("x\n" ++ "x\n") = Logstash.parse_log "x\n" ∧
    (Etcd.parse_log ("x\n" ++ "x\n")).failed_tests = (Etcd.parse_log "x\n").failed_tests :=
  c7_amended "x\n" (by decide)

/-! ## Claim C1: dual-timeout discipline of the reader -/

/-- On a marker-free trace the reader loop equals its exit-state
summary: it raises, and the error kind is decided by comparing the total
deadline with the final no-output deadline. -/
theorem readExpAux_timeout (T N : ℚ) :
    ∀ (events : List (ℚ × List Char)) (endNo : ℚ) (buf : List Char),
      (∀ n ≤ events.length,
        hasMarker (crlfNorm (buf ++ (((events.take n).map Prod.snd).flatten))) = false) →
      readExpAux T N endNo buf events =
        readTimeoutResult T (readExpExit T N endNo buf events).1
          (readExpExit T N endNo buf events).2
  | [], endNo, buf, _ => by simp only [readExpAux, readExpExit]
  | (t, d) :: rest, endNo, buf, h => by
      simp only [readExpAux, readExpExit]
      by_cases ht : t < min T endNo
      · rw [if_pos ht, if_pos ht]
        by_cases hd : d.isEmpty
        · rw [if_pos hd, if_pos hd]
          apply readExpAux_timeout T N rest endNo buf
          intro n hn
          have hd' : d = [] := List.isEmpty_iff.mp hd
          have := h (n + 1) (by simpa using Nat.succ_le_succ hn)
          simpa [hd'] using this
        · rw [if_neg hd, if_neg hd]
          have hm : hasMarker (crlfNorm (buf ++ d)) = false := by
            have := h 1 (by simp)
            simpa using this
          simp only [hm, Bool.false_eq_true, if_false]
          apply readExpAux_timeout T N rest (t + N) (buf ++ d)
          intro n hn
          have := h (n + 1) (by simpa using Nat.succ_le_succ hn)
          simpa [List.append_assoc] using this
      · rw [if_neg ht, if_neg ht]

/-- C1: when the end marker is never observed in the (CRLF-normalized)
accumulating buffer, `read_with_timeout_experimental` raises one of the
two timeout errors — `TimeoutError` exactly when the wall clock reaches
the total deadline `T` no later than the rolling no-output deadline
(which each arrival of bytes resets to its time plus `N`), and the
distinct `NoOutputTimeoutError` when the no-output deadline expires
first — and either exception carries the body built from the partial
output buffer as its second argument. -/
theorem c1_dual_timeout (T N : ℚ) (events : List (ℚ × List Char))
    (h : ∀ n ≤ events.length,
      hasMarker (crlfNorm (((events.take n).map Prod.snd).flatten)) = false) :
    read_with_timeout_experimental T N events =
      if T ≤ (readExpExit T N N [] events).1
      then ReadOutcome.totalTimeout (bodyOf (readExpExit T N N [] events).2)
      else ReadOutcome.noOutputTimeout (bodyOf (readExpExit T N N [] events).2) := by
  unfold read_with_timeout_experimental
  rw [readExpAux_timeout T N events N []]
  · rfl
  · intro n hn
    simpa using h n hn

/-- C1 (witness): a single early chunk `ab` with total timeout 10 and
no-output timeout 3 trips the no-output deadline (reset to 1 + 3 = 4)
with the partial buffer in the payload. -/
theorem c1_witness :
    read_with_timeout_experimental 10 3 [(1, "ab".data)] =
      ReadOutcome.noOutputTimeout "ab".data := by
  have h := c1_dual_timeout 10 3 [(1, "ab".data)] (by decide)
  rw [h]
  have he : readExpExit 10 3 3 [] [(1, "ab".data)] = (4, "ab".data) := by
    rw [readExpExit]
    rw [if_pos (by norm_num : (1 : ℚ) < min 10 3)]
    rw [if_neg (by decide : ¬ ("ab".data.isEmpty = true))]
    norm_num [readExpExit]
  rw [he]
  rw [if_neg (by norm_num : ¬ ((10 : ℚ) ≤ 4))]
  rfl

/-! ## Claim C8: the non-unicode guard -/

/-- C8 (counterexample): the empty buffer decodes as valid UTF-8 (zero
invalid bytes) yet the guard raises: its failure budget
`int(0.1 * 0) = 0` exhausts before the first decode attempt. -/
theorem c8_counterexample :
    check_for_too_many_non_unicode_bytes [] = Except.error () := rfl

/-- C8 (amended): the guard raises `UnicodeError` for every buffer
shorter than 10 bytes — valid, invalid or empty — because the failure
budget `int(0.1 * len)` is zero; for buffers of length at least 10 that
decode as valid UTF-8 it returns without raising (the first decode
attempt succeeds). -/
theorem c8_amended :
    (∀ buf : List Nat, buf.length < 10 →
        check_for_too_many_non_unicode_bytes buf = Except.error ()) ∧
    (∀ buf : List Nat, utf8Err 0 buf = none → 10 ≤ buf.length →
        check_for_too_many_non_unicode_bytes buf = Except.ok ()) := by
  constructor
  · intro buf h
    unfold check_for_too_many_non_unicode_bytes
    rw [Nat.div_eq_of_lt h]
    rfl
  · intro buf hv h
    unfold check_for_too_many_non_unicode_bytes
    obtain ⟨k, hk⟩ : ∃ k, buf.length / 10 = k + 1 := by
      have h1 : 1 ≤ buf.length / 10 := (Nat.one_le_div_iff (by norm_num)).mpr h
      exact ⟨buf.length / 10 - 1, by omega⟩
    rw [hk]
    simp [checkLoop, hv]

/-- C8 (witness): the amended statement at a valid 10-byte buffer and a
valid 1-byte buffer. -/
theorem c8_witness :
    check_for_too_many_non_unicode_bytes (List.replicate 10 65) = Except.ok () ∧
    check_for_too_many_non_unicode_bytes [65] = Except.error () :=
  ⟨c8_amended.2 (List.replicate 10 65) (by decide) (by decide),
   c8_amended.1 [65] (by decide)⟩

/-! ## Claim C3: auto-remove in persistent mode -/

/-- C3: launching a fresh container in persistent mode
(`get_container(..., persistent=True)` with no existing container)
creates it with `auto_remove=True`, because `get_container` calls
`_get_persistent_container(ctr_name, image_name)` without forwarding the
flag and the parameter defaults to `False`; had the flag been forwarded,
auto-remove would be disabled, as the second conjunct shows.  This
contradicts the claim (and the `EnvironmentArguments.container_name`
docstring) that the persistent container is created with auto-remove
disabled so that `close()` can pause it for later re-attachment. -/
theorem c3_autoremove_enabled :
    get_container_action true none =
      StartAction.createRun
        { command := "/bin/bash -l -m", stdinOpen := true, tty := true,
          detach := true, autoRemove := true } ∧
    get_persistent_container_action none true =
      StartAction.createRun
        { command := "/bin/bash -l -m", stdinOpen := true, tty := true,
          detach := true, autoRemove := false } :=
  ⟨rfl, rfl⟩

/-! ## Claim C4: the alien-process check -/

/-- C4 (counterexample): with a `ps` report that keeps showing one
session bash plus an alien `python` process at every poll, the startup
does not raise: after the bounded wait it finds exactly one bash and
returns a session with parent PIDs `{23, 1}`, the alien notwithstanding. -/
theorem c4_counterexample :
    persistent_startup_pids 1 (fun _ => "  1 bash\n 23 bash\n 99 python\n".data) =
      Except.ok {"23".data, "1".data} := rfl

/-- C4 (amended): after the bounded wait, startup raises the
alien-process error when more than one bash remains, or when no bash is
identified and other processes remain; but when exactly one session
bash is found, any remaining alien processes are tolerated and a
session is returned with parent PID set `{bash pid, 1}`. -/
theorem c4_alien_check (d : Nat) (polls : Nat → List Char) :
    ((pidWaitGo polls (get_background_pids (polls 0)) 1 (4 * d)).1.length = 1 →
      persistent_startup_pids d polls =
        Except.ok
          {((pidWaitGo polls (get_background_pids (polls 0)) 1 (4 * d)).1.getD 0 []).getD 0 [],
           "1".data}) ∧
    ((pidWaitGo polls (get_background_pids (polls 0)) 1 (4 * d)).1.length ≠ 1 →
      (1 < (pidWaitGo polls (get_background_pids (polls 0)) 1 (4 * d)).1.length ∨
        (pidWaitGo polls (get_background_pids (polls 0)) 1 (4 * d)).2 ≠ []) →
      persistent_startup_pids d polls = Except.error alienMsg) := by
  constructor
  · intro h1
    unfold persistent_startup_pids
    simp [h1]
  · intro h1 h2
    unfold persistent_startup_pids
    rw [if_neg h1]
    rw [if_pos]
    rcases h2 with h2 | h2
    · simp [h2]
    · simp [h2, List.isEmpty_iff]

/-- C4 (witness): the amended characterization applied to a constant
`ps` report with two bash processes, which raises. -/
theorem c4_witness :
    persistent_startup_pids 1 (fun _ => "  1 bash\n 23 bash\n 24 bash\n".data) =
      Except.error alienMsg :=
  (c4_alien_check 1 (fun _ => "  1 bash\n 23 bash\n 24 bash\n".data)).2
    (by decide) (by decide)

/-! ## Claim C5: the exit_* short-circuit -/

/-- C5 (counterexample): `exit_custom` starts with `exit_` but is not in
the literal sentinel set, so `step` does not short-circuit: the action
is rewritten (here unchanged) and sent to the shell, and the episode
does not end. -/
theorem c5_counterexample :
    (step_action "exit_custom" (Except.error ())).executed = some "exit_custom" ∧
    (step_action "exit_custom" (Except.error ())).done = false := by
  constructor <;> rfl

/-- C5 (amended): for the five literal sentinel actions `exit_context`,
`exit_cost`, `exit_error`, `exit_format`, `exit_api` (not for arbitrary
`exit_*` names), `step` short-circuits without sending the action to the
shell and always ends the episode: on a successful `submit` whose output
contains a nonempty submission it returns the captured diff with
`exit_status = "submitted (<action>)"`, and if the submit attempt fails
it still returns `done` with `exit_status` set to the action. -/
theorem c5_exit_shortcircuit (action : String) (h : action ∈ exitActionSet)
    (r : Except Unit String) :
    (step_action action r).executed = none ∧
    (step_action action r).done = true ∧
    (∀ obs sub, r = Except.ok obs → get_submission obs = some sub → pyStripS sub ≠ "" →
      (step_action action r).submission = some sub ∧
      (step_action action r).exitStatus = some ("submitted (" ++ action ++ ")")) ∧
    (r = Except.error () →
      (step_action action r).exitStatus = some action ∧
      (step_action action r).submission = none) := by
  have h' : action = "exit_context" ∨ action = "exit_cost" ∨ action = "exit_error" ∨
      action = "exit_format" ∨ action = "exit_api" := by
    simpa [exitActionSet] using h
  have hski : ¬ pyStripS action = "skip" := by
    rcases h' with rfl | rfl | rfl | rfl | rfl <;> decide
  unfold step_action
  rw [if_neg hski, if_pos h]
  refine ⟨?_, ?_, ?_, ?_⟩
  · cases r with
    | error e => rfl
    | ok obs =>
        cases hg : get_submission obs with
        | none => simp [hg]
        | some sub =>
            by_cases hs : pyStripS sub ≠ "" <;> simp [hg, hs]
  · cases r with
    | error e => rfl
    | ok obs =>
        cases hg : get_submission obs with
        | none => simp [hg]
        | some sub =>
            by_cases hs : pyStripS sub ≠ "" <;> simp [hg, hs]
  · rintro obs sub rfl hg hs
    simp [hg, hs]
  · rintro rfl
    exact ⟨rfl, rfl⟩

/-- C5 (witness): the amended behavior at `exit_cost` with a successful
submit carrying a submission. -/
theorem c5_witness :
    (step_action "exit_cost" (Except.ok "<<SUBMISSION||diff x||SUBMISSION>>")).submission
        = some "diff x" ∧
    (step_action "exit_cost" (Except.ok "<<SUBMISSION||diff x||SUBMISSION>>")).exitStatus
        = some ("submitted (" ++ "exit_cost" ++ ")") :=
  (c5_exit_shortcircuit "exit_cost" (by decide)
      (Except.ok "<<SUBMISSION||diff x||SUBMISSION>>")).2.2.1
    "<<SUBMISSION||diff x||SUBMISSION>>" "diff x" rfl (by decide) (by decide)

/-! ## Claim C9: the `exit` input in `communicate` -/

/-- C9: for an input whose `strip()` is `exit`, `communicate` skips the
pre-flight syntax check and never writes to the shell's stdin; the only
effect is terminating the shell subprocess, with returncode set to 0,
`communicate_output` set to the empty string, and the empty string
returned, whatever the oracles for the skipped calls would have said. -/
theorem c9_exit_terminates (input syntaxOut : String) (syntaxCode : Int)
    (runOut : String) (runCode : Int) (h : pyStripS input = "exit") :
    communicate input syntaxOut syntaxCode runOut runCode =
      { output := "", returncode := some 0, communicateOutput := some "",
        effects := [ShellEffect.terminate] } := by
  unfold communicate
  simp [h]

/-- C9 (witness): `communicate`'s exit short-circuit at the concrete
input `"  exit\n"`, with oracles that would have reported a syntax
failure. -/
theorem c9_witness :
    communicate "  exit\n" "syntax error" 2 "output" 0 =
      { output := "", returncode := some 0, communicateOutput := some "",
        effects := [ShellEffect.terminate] } :=
  c9_exit_terminates "  exit\n" "syntax error" 2 "output" 0 (by decide)

/-! ## Claim C10: NoOutputTimeoutError is caught as TimeoutError -/

/-- C10: `NoOutputTimeoutError` is declared a subclass of
`TimeoutError`, so `step`'s first `except TimeoutError` clause catches
a no-output timeout, and the branch's behavior — appending the partial
body `e.args[1]`, running the interrupt, appending the banner on
success or recording `early_exit` and closing on failure — is literally
identical to that for a total timeout with the same payload. -/
theorem c10_nooutput_caught_as_timeout (m b : String) (ir : Except String String) :
    step_handler_for (CommExc.noOutputTimeout m b) = some StepClause.timeoutClause ∧
    step_exc_branch (CommExc.noOutputTimeout m b) ir =
      step_exc_branch (CommExc.totalTimeout m b) ir := by
  refine ⟨rfl, ?_⟩
  cases ir <;> rfl

end MSWE
